import Mathlib

/-!
Verification of `matrix_hebrew.py` (Hebrew matrix-rain animation).

Shallow embedding of the program's data model and per-tick operations:

* `Drop` with its trail-update rule (`Drop.update`, source lines 61-73),
* `Cluster` with its swirl update and the retention test performed by the
  scheduler's list comprehension (`clustersStep`, source line 158),
* the word-detection loop run on a retiring drop (`detectWords`,
  source lines 150-155),
* the scheduler tick: input dispatch, pause gate, update phase and
  termination check (`tick`, source lines 129-166).

Modelling conventions:

* Python floats are embedded as exact rationals (the specification's data
  model calls the vertical position a real number).  All float literals of
  the source (0.4, 0.05, 0.01, 0.3, 0.1, 3.1415) are exact decimal
  rationals here.
* Python `int(x)` truncates toward zero; `pyTrunc` mirrors that.
* Randomness (spawn decisions, glyph morphing, start rows) is passed in
  explicitly: `Drop.update` receives the optional replacement glyph, the
  scheduler tick receives an `Env` of oracle decisions.
* Python functions that fall through without `return` yield `None`, which
  is falsy in a boolean context; `Cluster.draw` is modelled as returning
  `Except` because its body evaluates `curses.cos`, an attribute the
  `curses` module does not define, raising `AttributeError` before the
  guarded `addstr` call.
-/

set_option maxRecDepth 4000

/-- Python `int()` applied to a rational: truncation toward zero. -/
def pyTrunc (q : ℚ) : Int := if q < 0 then ⌈q⌉ else ⌊q⌋

/-- Words and probe strings are sequences of characters. -/
abbrev Word := List Char

/-- Python substring containment `w in s`: some contiguous slice of `s`
equals `w` (true for the empty word, as in Python). -/
def pyIn (w s : Word) : Bool :=
  (List.range (s.length + 1)).any (fun i => ((s.drop i).take w.length) == w)

/-- The four fixed layer speeds of source line 57: `[0.4,0.8,1.2,1.6][layer]`. -/
def LAYER_SPEEDS : List ℚ := [0.4, 0.8, 1.2, 1.6]

/-- Termination target, source line 30. -/
def TARGET_COUNT : Nat := 10

/-- A falling glyph with its fading trail (source class `Drop`, lines 51-81).
`trail` is most-recent-first; each entry is `(row, glyph, age)`. -/
structure Drop where
  x : Int
  layer : Nat
  y : ℚ
  speed : ℚ
  char : Char
  trail : List (Int × Char × Nat)
  colors : List Nat
deriving DecidableEq

/-- `Drop.__init__` (lines 53-60): the start row `y0` and initial glyph `c0`
are drawn from the random source by the caller; the speed is the layer's
fixed entry; the trail starts empty. -/
def Drop.init (x : Int) (layer : Nat) (y0 : ℚ) (c0 : Char) (colors : List Nat) : Drop :=
  { x := x, layer := layer, y := y0, speed := LAYER_SPEEDS.getD layer 0,
    char := c0, trail := [], colors := colors }

/-- `Drop.update` (lines 61-73), state change only: advance `y` by the speed;
insert `(int(y), char, 0)` at the head of the trail; then one pass over the
whole trail (the fresh entry included) keeps exactly the entries whose age
is below the palette depth, incrementing each kept age by 1.  Afterwards
the glyph may be replaced (`random.random()<0.02`), modelled by the
`morph` oracle. -/
def Drop.update (d : Drop) (morph : Option Char) : Drop :=
  let y2 := d.y + d.speed
  let t2 := ((pyTrunc y2, d.char, 0) :: d.trail).filterMap
      (fun e => if e.2.2 < d.colors.length then some (e.1, e.2.1, e.2.2 + 1) else none)
  { d with y := y2, trail := t2, char := morph.getD d.char }

/-- The boolean returned by `Drop.update` (line 73), computed on the
post-update state: `self.y < max_row + len(self.colors)`. -/
def Drop.aliveRet (d : Drop) (maxRow : ℚ) : Bool :=
  decide (d.y < maxRow + d.colors.length)

/-- Iterate `Drop.update` over a sequence of per-tick morph decisions. -/
def Drop.iter (d : Drop) (ms : List (Option Char)) : Drop :=
  ms.foldl Drop.update d

/-- The gradient index computed in `Drop.draw` (line 76):
`min(age, len(self.colors)-1)`. -/
def Drop.colorIdx (d : Drop) (age : Nat) : Nat :=
  min age (d.colors.length - 1)

/-- `Drop.draw` (lines 74-81) as render data: for each trail entry, the
placement `(row, column, glyph, colorPairIndex)` requested from curses. -/
def Drop.drawOps (d : Drop) : List (Int × Int × Char × Nat) :=
  d.trail.map (fun e => (e.1, d.x, e.2.1, d.colors.getD (d.colorIdx e.2.2) 0))

/-- The probe string built from a retired drop's trail (line 151):
`''.join(t[1] for t in d.trail)`, newest-to-oldest. -/
def Drop.probe (d : Drop) : Word :=
  d.trail.map (fun e => e.2.1)

/-- One letter of a swirling cluster (`{'ch':…,'angle':…,'rad':…}`). -/
structure ClLetter where
  ch : Char
  angle : ℚ
  rad : ℚ
deriving DecidableEq

/-- Exception values the embedded code can raise. -/
inductive PyErr where
  | attributeError
deriving DecidableEq

/-- A swirling cluster spelling a found word (source class `Cluster`,
lines 83-109). -/
structure Cluster where
  letters : List ClLetter
  lifespan : Nat
  age : Nat
  colors : List Nat
  cx : Int
  cy : Int
deriving DecidableEq

/-- `Cluster.__init__` (lines 85-94): one letter per character, angles
evenly stepped by `2*3.1415/len(word)`, radius 0, age 0. -/
def Cluster.init (word : Word) (cx cy : Int) (lifespan : Nat) (colors : List Nat) : Cluster :=
  let step : ℚ := 2 * 3.1415 / word.length
  { letters := word.enum.map (fun p => { ch := p.2, angle := p.1 * step, rad := 0 }),
    lifespan := lifespan, age := 0, colors := colors, cx := cx, cy := cy }

/-- `Cluster.update` (lines 95-100): increment the age, advance every
letter's radius by 0.3 and angle by 0.1, and return
`self.age < self.lifespan` on the new age. -/
def Cluster.update (c : Cluster) : Cluster × Bool :=
  let c2 := { c with
              age := c.age + 1,
              letters := c.letters.map
                (fun l => { l with rad := l.rad + 0.3, angle := l.angle + 0.1 }) }
  (c2, decide (c2.age < c2.lifespan))

/-- `Cluster.draw` (lines 101-109).  The first statement of the loop body
evaluates `curses.cos(...)` (line 103); the `curses` module has no `cos`
attribute, so an `AttributeError` is raised outside the `try` block as soon
as there is a letter to draw.  With no letters the loop body never runs and
the function falls through, returning `None`. -/
def Cluster.draw (c : Cluster) : Except PyErr Unit :=
  if c.letters.isEmpty then Except.ok () else Except.error PyErr.attributeError

/-- The scheduler's cluster pass (line 158):
`clusters=[c for c in clusters if c.update() and c.draw(stdscr)]`.
Each cluster is updated; if the update reports it alive, `draw` is
evaluated (possibly raising); when `draw` returns normally its value is
`None`, which is falsy, so the conjunction is falsy and the cluster is not
retained.  A dead cluster short-circuits the conjunction and is likewise
dropped. -/
def clustersStep : List Cluster → Except PyErr (List Cluster)
  | [] => Except.ok []
  | c :: rest =>
    let p := Cluster.update c
    if p.2 then
      match Cluster.draw p.1 with
      | Except.error e => Except.error e
      | Except.ok _ => clustersStep rest
    else clustersStep rest

/-- One dictionary word processed by the detection loop body
(lines 150-155): if the word occurs in the probe and is not yet in the
found list, append it to the found list and record a spawned
cluster/log event for it.  The accumulator is `(found, spawnedThisTick)`. -/
def detectStep (probe : Word) (acc : List Word × List Word) (w : Word) :
    List Word × List Word :=
  if pyIn w probe then
    if w ∈ acc.1 then acc else (acc.1 ++ [w], acc.2 ++ [w])
  else acc

/-- The full detection loop `for w in WORD_LIST: ...` run on a retiring
drop's probe string: returns the new found list and the words for which a
cluster was spawned (equivalently, log entries emitted) this pass. -/
def detectWords (wl : List Word) (probe : Word) (found : List Word) :
    List Word × List Word :=
  wl.foldl (detectStep probe) (found, [])

/-- One tick's worth of detection from the session's point of view: run
the detection loop on one probe against the current found list, and append
this tick's spawned words to the session's log of spawned clusters. -/
def sessionStep (wl : List Word) (acc : List Word × List Word) (p : Word) :
    List Word × List Word :=
  ((detectWords wl p acc.1).1, acc.2 ++ (detectWords wl p acc.1).2)

/-- A whole session's worth of detection passes, starting from the empty
found list: fold `detectWords` over the successive probe strings,
collecting every spawned word. -/
def sessionDetect (wl : List Word) (probes : List Word) : List Word × List Word :=
  probes.foldl (sessionStep wl) ([], [])

/-- Scheduler-owned state (locals of `main`, lines 123-125). -/
structure SchedState where
  drops : List Drop
  clusters : List Cluster
  found : List Word
  paused : Bool
  delay : ℚ
  frame : Nat
  spin : Nat
deriving DecidableEq

/-- Input dispatch (lines 131-140): at most one pending key is handled per
tick; the boolean is true exactly when the quit command breaks the loop. -/
def handleInput (inp : Option Char) (s : SchedState) : SchedState × Bool :=
  match inp with
  | none => (s, false)
  | some c =>
    if c = 'p' then ({ s with paused := !s.paused }, false)
    else if c = 's' then (s, false)
    else if c = 'v' then (s, false)
    else if c = 'r' then (s, false)
    else if c = '+' then ({ s with delay := max 0.01 (s.delay - 0.01) }, false)
    else if c = '-' then ({ s with delay := s.delay + 0.01 }, false)
    else if c = 'q' then (s, true)
    else (s, false)

/-- Per-tick oracle for the random source: the optionally spawned new drop
(line 144) and each drop's optional morph glyph (line 72), indexed by the
drop's position in the iteration order. -/
structure Env where
  spawn : Option Drop
  morph : Nat → Option Char

/-- The drop pass of the update phase (lines 144-156): append the randomly
spawned drop, then for each drop run `update`; live drops are kept (in
order), retired drops are scanned by the detection loop, which grows the
found list and appends clusters (centered at `(cx, cy)` with lifespan 40
and the first layer's gradient `[1,2,3,4,5]`, line 154). -/
def dropsStep (wl : List Word) (env : Env) (maxRow : ℚ) (cx cy : Int)
    (acc : List Drop × List Word × List Cluster) (p : Nat × Drop) :
    List Drop × List Word × List Cluster :=
  let d2 := Drop.update p.2 (env.morph p.1)
  if d2.aliveRet maxRow then (acc.1 ++ [d2], acc.2.1, acc.2.2)
  else
    let r := detectWords wl d2.probe acc.2.1
    (acc.1, r.1, acc.2.2 ++ r.2.map (fun w => Cluster.init w cx cy 40 [1, 2, 3, 4, 5]))

def dropsPhase (wl : List Word) (env : Env) (maxRow : ℚ) (cx cy : Int)
    (drops : List Drop) (found : List Word) (clusters : List Cluster) :
    List Drop × List Word × List Cluster :=
  ((drops ++ env.spawn.toList).enum).foldl (dropsStep wl env maxRow cx cy)
    (([] : List Drop), found, clusters)

/-- Result of one tick of the cinematic loop. -/
structure TickOut where
  state : SchedState
  brk : Bool
  rendered : Bool
deriving DecidableEq

/-- The unpaused update phase (lines 142-166): drop pass, then the cluster
pass (which can raise, aborting the tick), then the spinner advance
(line 160). -/
def updatePhase (wl : List Word) (env : Env) (maxRow : ℚ) (cx cy : Int)
    (s : SchedState) : Except PyErr SchedState :=
  let r := dropsPhase wl env maxRow cx cy s.drops s.found s.clusters
  match clustersStep r.2.2 with
  | Except.error e => Except.error e
  | Except.ok cls =>
    Except.ok { s with
                drops := r.1, found := r.2.1, clusters := cls,
                spin := if s.frame % 6 = 0 then (s.spin + 1) % 4 else s.spin }

/-- One iteration of the cinematic loop (lines 129-166): increment the
frame counter, poll and dispatch at most one input command (quit breaks
immediately, before the pause gate), then, when not paused, erase and run
the update phase, render, and perform the termination check
`len(found) >= TARGET_COUNT`.  A paused tick renders nothing and skips the
termination check. -/
def tick (wl : List Word) (env : Env) (maxRow : ℚ) (cx cy : Int)
    (inp : Option Char) (s : SchedState) : Except PyErr TickOut :=
  let s0 := { s with frame := s.frame + 1 }
  let h := handleInput inp s0
  if h.2 then Except.ok { state := h.1, brk := true, rendered := false }
  else if h.1.paused then Except.ok { state := h.1, brk := false, rendered := false }
  else
    match updatePhase wl env maxRow cx cy h.1 with
    | Except.error e => Except.error e
    | Except.ok s2 =>
      Except.ok { state := s2, brk := decide (TARGET_COUNT ≤ s2.found.length), rendered := true }

/-! ## Trail lemmas (Drop.update, lines 63-70) -/

/-- The evolution of the trail's age column under one `Drop.update`:
a fresh age-0 entry is put in front, then every entry with age below the
palette depth `n` survives with its age incremented. -/
def stepAges (n : Nat) (l : List Nat) : List Nat :=
  (0 :: l).filterMap (fun a => if a < n then some (a + 1) else none)

theorem filterMap_age_comm (n : Nat) (t : List (Int × Char × Nat)) :
    (t.filterMap
        (fun e => if e.2.2 < n then some (e.1, e.2.1, e.2.2 + 1) else none)).map
        (fun e => e.2.2)
      = (t.map (fun e => e.2.2)).filterMap
          (fun a => if a < n then some (a + 1) else none) := by
  induction t with
  | nil => rfl
  | cons e t ih =>
    by_cases h : e.2.2 < n <;> simp [List.filterMap_cons, h, ih]

theorem update_colors (d : Drop) (m : Option Char) : (d.update m).colors = d.colors := rfl

theorem update_speed (d : Drop) (m : Option Char) : (d.update m).speed = d.speed := rfl

theorem update_y (d : Drop) (m : Option Char) : (d.update m).y = d.y + d.speed := rfl

theorem trail_ages_update (d : Drop) (m : Option Char) :
    (d.update m).trail.map (fun e => e.2.2)
      = stepAges d.colors.length (d.trail.map (fun e => e.2.2)) := by
  show ((((pyTrunc (d.y + d.speed), d.char, 0) :: d.trail).filterMap
      (fun e => if e.2.2 < d.colors.length then some (e.1, e.2.1, e.2.2 + 1) else none)).map
      (fun e => e.2.2)) = _
  rw [filterMap_age_comm]
  rfl

/-- Every age produced by a trail-update pass is in `[1, n]`: survivors had
age below `n` and were incremented by one. -/
theorem stepAges_bounds (n : Nat) (l : List Nat) (a : Nat) (h : a ∈ stepAges n l) :
    1 ≤ a ∧ a ≤ n := by
  unfold stepAges at h
  rcases List.mem_filterMap.mp h with ⟨b, _, hb⟩
  by_cases hbn : b < n
  · rw [if_pos hbn] at hb
    cases hb
    omega
  · rw [if_neg hbn] at hb
    cases hb

/-- The age columns reachable from the empty trail at palette depth 5. -/
def trailAgeStates : List (List Nat) :=
  [[], [1], [1, 2], [1, 2, 3], [1, 2, 3, 4], [1, 2, 3, 4, 5]]

theorem stepAges_mem (l : List Nat) (h : l ∈ trailAgeStates) :
    stepAges 5 l ∈ trailAgeStates := by
  simp only [trailAgeStates, List.mem_cons, List.not_mem_nil, or_false] at h
  rcases h with h | h | h | h | h | h <;> subst h <;> decide

theorem mem_trailAgeStates_length (l : List Nat) (h : l ∈ trailAgeStates) :
    l.length ≤ 5 := by
  simp only [trailAgeStates, List.mem_cons, List.not_mem_nil, or_false] at h
  rcases h with h | h | h | h | h | h <;> subst h <;> decide

theorem iter_colors (d : Drop) (ms : List (Option Char)) :
    (d.iter ms).colors = d.colors := by
  induction ms generalizing d with
  | nil => rfl
  | cons m ms ih => exact ih (d.update m)

theorem iter_speed (d : Drop) (ms : List (Option Char)) :
    (d.iter ms).speed = d.speed := by
  induction ms generalizing d with
  | nil => rfl
  | cons m ms ih => exact ih (d.update m)

theorem iter_ages_mem (d : Drop) (h5 : d.colors.length = 5)
    (hmem : d.trail.map (fun e => e.2.2) ∈ trailAgeStates) (ms : List (Option Char)) :
    (d.iter ms).trail.map (fun e => e.2.2) ∈ trailAgeStates := by
  induction ms generalizing d with
  | nil => exact hmem
  | cons m ms ih =>
    have hc : (d.update m).colors.length = 5 := by rw [update_colors]; exact h5
    refine ih (d.update m) hc ?_
    rw [trail_ages_update, h5]
    exact stepAges_mem _ hmem

/-- C4: for every drop and every tick, immediately after the drop's update
the trail length is at most the palette depth (5, the length of its color
gradient).  A drop starts with an empty trail (`Drop.__init__`, line 59)
and its trail is only ever changed by `Drop.update`. -/
theorem C4_trail_length_le_depth (x : Int) (layer : Nat) (y0 : ℚ) (c0 : Char)
    (colors : List Nat) (h5 : colors.length = 5) (ms : List (Option Char)) :
    ((Drop.init x layer y0 c0 colors).iter ms).trail.length ≤ 5 := by
  have h := iter_ages_mem (Drop.init x layer y0 c0 colors) h5 (by simp [Drop.init]; decide) ms
  have hl := mem_trailAgeStates_length _ h
  rwa [List.length_map] at hl

/-- Witness for C4 at a concrete drop run for seven ticks. -/
theorem C4_trail_length_le_depth_witness :
    ((Drop.init 0 0 0 'a' [1, 2, 3, 4, 5]).iter
        [none, none, none, none, none, none, none]).trail.length ≤ 5 :=
  C4_trail_length_le_depth 0 0 0 'a' [1, 2, 3, 4, 5] rfl
    [none, none, none, none, none, none, none]

/-- A concrete drop used in counterexamples and witnesses: column 0,
layer 0, start row 0, glyph 'a', the first layer's gradient. -/
def drop0 : Drop := Drop.init 0 0 0 'a' [1, 2, 3, 4, 5]

/-- Counterexample to C5 as stated: the claim says that after the update
the newest trail entry has age 0; in the code the freshly inserted entry
participates in the aging pass (lines 67-70), so after one update of a
fresh drop the single (newest) trail entry has age 1, not 0. -/
theorem C5_counterexample :
    ¬ (((drop0.update none).trail.map (fun e => e.2.2)).head? = some 0) := by
  decide

/-- C5 amended: each tick prepends an entry at the current integer row
carrying the drop's current glyph, tagged age 0, and then ages EVERY entry
(the new one included) by 1, dropping entries whose pre-increment age has
reached the palette depth; hence after the update the newest entry has
age 1 and every entry's age lies in `[1, 5]` (an entry's age may equal the
depth 5; it is removed on the following tick). -/
theorem C5_amended (d : Drop) (m : Option Char) (h5 : d.colors.length = 5) :
    (d.update m).trail.head? = some (pyTrunc (d.y + d.speed), d.char, 1)
    ∧ ∀ a ∈ (d.update m).trail.map (fun e => e.2.2), 1 ≤ a ∧ a ≤ 5 := by
  constructor
  · show (((pyTrunc (d.y + d.speed), d.char, 0) :: d.trail).filterMap
        (fun e => if e.2.2 < d.colors.length then some (e.1, e.2.1, e.2.2 + 1) else none)).head?
        = _
    rw [List.filterMap_cons]
    have h0 : (0 : Nat) < d.colors.length := by omega
    simp [h0]
  · intro a ha
    rw [trail_ages_update, h5] at ha
    exact stepAges_bounds 5 _ a ha

/-- Witness for C5 amended at the concrete drop `drop0`. -/
theorem C5_amended_witness :
    (drop0.update none).trail.head? = some (pyTrunc (drop0.y + drop0.speed), drop0.char, 1) :=
  (C5_amended drop0 none rfl).1

/-- C7: a drop's speed is fixed at creation to its layer's entry of
`[0.4, 0.8, 1.2, 1.6]`, never changes over any sequence of updates, each
update advances `y` by exactly that speed, and `y` never decreases.
(Float arithmetic is modelled as exact rational arithmetic, matching the
specification's description of the position as a real number.) -/
theorem C7_speed_fixed_y_monotone (x : Int) (layer : Nat) (y0 : ℚ) (c0 : Char)
    (colors : List Nat) (h4 : layer < 4) (ms : List (Option Char)) (m : Option Char) :
    ((Drop.init x layer y0 c0 colors).iter ms).speed = LAYER_SPEEDS.getD layer 0
    ∧ 0 < LAYER_SPEEDS.getD layer 0
    ∧ (((Drop.init x layer y0 c0 colors).iter ms).update m).y
        = ((Drop.init x layer y0 c0 colors).iter ms).y + LAYER_SPEEDS.getD layer 0
    ∧ ((Drop.init x layer y0 c0 colors).iter ms).y
        ≤ (((Drop.init x layer y0 c0 colors).iter ms).update m).y := by
  have hs : ((Drop.init x layer y0 c0 colors).iter ms).speed = LAYER_SPEEDS.getD layer 0 := by
    rw [iter_speed]; rfl
  have hpos : 0 < LAYER_SPEEDS.getD layer 0 := by
    interval_cases layer <;> norm_num [LAYER_SPEEDS]
  refine ⟨hs, hpos, ?_, ?_⟩
  · rw [update_y, hs]
  · rw [update_y]
    nlinarith [hpos, hs]

/-- Witness for C7 at a concrete layer-2 drop after one tick. -/
theorem C7_speed_fixed_y_monotone_witness :
    ((Drop.init 0 2 0 'a' [1, 2, 3, 4, 5]).iter [none]).speed = LAYER_SPEEDS.getD 2 0
    ∧ 0 < LAYER_SPEEDS.getD 2 0
    ∧ (((Drop.init 0 2 0 'a' [1, 2, 3, 4, 5]).iter [none]).update none).y
        = ((Drop.init 0 2 0 'a' [1, 2, 3, 4, 5]).iter [none]).y + LAYER_SPEEDS.getD 2 0
    ∧ ((Drop.init 0 2 0 'a' [1, 2, 3, 4, 5]).iter [none]).y
        ≤ (((Drop.init 0 2 0 'a' [1, 2, 3, 4, 5]).iter [none]).update none).y :=
  C7_speed_fixed_y_monotone 0 2 0 'a' [1, 2, 3, 4, 5] (by omega) [none] none

/-- C10: after any `Drop.update` every trail entry's age is at least 1
(the entry inserted that tick included), so the gradient index
`min(age, depth-1)` used by `Drop.draw` is at least 1 and the brightest
gradient entry (index 0) is never selected for a trail glyph. -/
theorem C10_brightest_color_unused (d : Drop) (m : Option Char) (h5 : d.colors.length = 5)
    (a : Nat) (ha : a ∈ (d.update m).trail.map (fun e => e.2.2)) :
    1 ≤ a ∧ 1 ≤ (d.update m).colorIdx a := by
  rw [trail_ages_update, h5] at ha
  have hb := stepAges_bounds 5 _ a ha
  refine ⟨hb.1, ?_⟩
  unfold Drop.colorIdx
  rw [update_colors, h5]
  exact le_min hb.1 (by omega)

/-- Witness for C10: the single trail entry of a freshly updated drop has
age 1 and gradient index 1. -/
theorem C10_brightest_color_unused_witness :
    1 ≤ 1 ∧ 1 ≤ (drop0.update none).colorIdx 1 :=
  C10_brightest_color_unused drop0 none rfl 1 (by decide)

/-! ## Cluster retention (line 158) -/

/-- The cluster spawned by `main` for a ten-character word (line 154):
screen centre, lifespan 40, first layer's gradient. -/
def cluster0 : Cluster := Cluster.init (List.replicate 10 'a') 40 12 40 [1, 2, 3, 4, 5]

/-- C2 (code bug): `Cluster.update` itself reports the cluster alive on its
first tick (age 1 < lifespan 40), but the scheduler's retention pass
`[c for c in clusters if c.update() and c.draw(stdscr)]` then evaluates
`c.draw`, whose body evaluates the nonexistent `curses.cos` outside the
`try` block and raises `AttributeError`, crashing the tick: the cluster
never survives to any later tick, let alone to age 39. -/
theorem C2_cluster_first_tick_crash :
    (Cluster.update cluster0).2 = true
    ∧ clustersStep [cluster0] = Except.error PyErr.attributeError :=
  ⟨rfl, rfl⟩

/-! ## Word-detection lemmas (lines 150-155) -/

/-- The exact effect of one detection pass on the number of occurrences of
a word `w` in the found list and in the spawned list: the pass adds one
occurrence exactly when `w` is not yet found, is a dictionary entry, and
occurs in the probe; otherwise both counts are unchanged. -/
theorem detect_aux (p : Word) (w : Word) (wl : List Word) :
    ∀ acc : List Word × List Word,
      (wl.foldl (detectStep p) acc).1.count w
          = acc.1.count w + (if w ∉ acc.1 ∧ w ∈ wl ∧ pyIn w p = true then 1 else 0)
        ∧ (wl.foldl (detectStep p) acc).2.count w
          = acc.2.count w + (if w ∉ acc.1 ∧ w ∈ wl ∧ pyIn w p = true then 1 else 0) := by
  induction wl with
  | nil => intro acc; simp
  | cons v rest ih =>
    intro acc
    rw [List.foldl_cons]
    rcases ih (detectStep p acc v) with ⟨h1, h2⟩
    rw [h1, h2]
    unfold detectStep
    by_cases hwv : w = v
    · subst hwv
      by_cases hwp : pyIn w p = true
      · by_cases hwa : w ∈ acc.1
        · simp [hwp, hwa]
        · simp only [hwp, if_pos, hwa, if_neg, not_false_iff]
          simp [List.count_append, hwa, hwp, List.count_eq_zero.mpr hwa]
      · simp [hwp]
    · have hne : w ≠ v := hwv
      by_cases hvp : pyIn v p = true
      · by_cases hva : v ∈ acc.1
        · simp [hvp, hva, List.mem_cons, hne]
        · simp only [hvp, if_pos, hva, if_neg, not_false_iff]
          have hm : (w ∉ acc.1 ++ [v]) ↔ (w ∉ acc.1) := by
            simp [List.mem_append, hne]
          simp [List.count_append, hm, List.mem_cons, hne,
            List.count_singleton', Ne.symm hne]
      · simp [hvp, List.mem_cons, hne]

theorem detect_found_count (wl : List Word) (p : Word) (f : List Word) (w : Word) :
    (detectWords wl p f).1.count w
      = f.count w + (if w ∉ f ∧ w ∈ wl ∧ pyIn w p = true then 1 else 0) :=
  (detect_aux p w wl (f, [])).1

theorem detect_spawn_count (wl : List Word) (p : Word) (f : List Word) (w : Word) :
    (detectWords wl p f).2.count w
      = (if w ∉ f ∧ w ∈ wl ∧ pyIn w p = true then 1 else 0) := by
  have h := (detect_aux p w wl (f, [])).2
  simpa using h

/-- Counterexample to C1 as stated: with two unclaimed one-letter
dictionary words both occurring in the retiring drop's probe string, the
detection loop (which has no break) claims BOTH words in the same pass:
both are appended to the found list and both spawn a cluster, where the
claim says only the first may be claimed that tick. -/
theorem C1_counterexample :
    detectWords [['a'], ['b']] ['a', 'b'] [] = ([['a'], ['b']], [['a'], ['b']]) := by
  decide

/-- C1 amended: when a drop retires, EVERY dictionary word not yet in the
found set that occurs in the probe string is claimed on that same pass, in
dictionary iteration order: each one is appended to the found list and
spawns a cluster.  (The loop at lines 150-155 has no break and no
once-per-tick guard.) -/
theorem C1_amended (wl : List Word) (p : Word) (f : List Word) (w : Word)
    (hw : w ∈ wl) (hp : pyIn w p = true) (hf : w ∉ f) :
    w ∈ (detectWords wl p f).1 ∧ w ∈ (detectWords wl p f).2 := by
  have h1 := detect_found_count wl p f w
  have h2 := detect_spawn_count wl p f w
  rw [if_pos ⟨hf, hw, hp⟩] at h1 h2
  constructor
  · have : 0 < (detectWords wl p f).1.count w := by omega
    exact List.count_pos_iff.mp this
  · have : 0 < (detectWords wl p f).2.count w := by omega
    exact List.count_pos_iff.mp this

/-- Witness for C1 amended: the second word of a two-word dictionary is
claimed on the same pass as the first. -/
theorem C1_amended_witness :
    ['b'] ∈ (detectWords [['a'], ['b']] ['a', 'b'] []).1
    ∧ ['b'] ∈ (detectWords [['a'], ['b']] ['a', 'b'] []).2 :=
  C1_amended [['a'], ['b']] ['a', 'b'] [] ['b'] (by decide) (by decide) (by decide)

theorem sessionStep_counts (wl : List Word) (w : Word) (acc : List Word × List Word)
    (p : Word) (h1 : acc.2.count w = acc.1.count w) (h2 : acc.1.count w ≤ 1) :
    (sessionStep wl acc p).2.count w = (sessionStep wl acc p).1.count w
    ∧ (sessionStep wl acc p).1.count w ≤ 1 := by
  unfold sessionStep
  simp only [List.count_append, detect_found_count, detect_spawn_count, h1]
  by_cases hc : w ∉ acc.1 ∧ w ∈ wl ∧ pyIn w p = true
  · have h0 : acc.1.count w = 0 := List.count_eq_zero.mpr hc.1
    simp only [if_pos hc, h0]
    exact ⟨trivial, by omega⟩
  · simp only [if_neg hc]
    exact ⟨trivial, by omega⟩

theorem session_aux (wl : List Word) (w : Word) (probes : List Word) :
    ∀ acc : List Word × List Word,
      acc.2.count w = acc.1.count w → acc.1.count w ≤ 1 →
        (probes.foldl (sessionStep wl) acc).2.count w
            = (probes.foldl (sessionStep wl) acc).1.count w
        ∧ (probes.foldl (sessionStep wl) acc).1.count w ≤ 1 := by
  induction probes with
  | nil => intro acc h1 h2; exact ⟨h1, h2⟩
  | cons p ps ih =>
    intro acc h1 h2
    rw [List.foldl_cons]
    rcases sessionStep_counts wl w acc p h1 h2 with ⟨g1, g2⟩
    exact ih _ g1 g2

theorem sessionStep_found_mono (wl : List Word) (acc : List Word × List Word)
    (p : Word) (w : Word) (h : w ∈ acc.1) : w ∈ (sessionStep wl acc p).1 := by
  have hc : 0 < acc.1.count w := List.count_pos_iff.mpr h
  have : 0 < (detectWords wl p acc.1).1.count w := by
    rw [detect_found_count]; omega
  exact List.count_pos_iff.mp this

theorem session_found_mono (wl : List Word) (w : Word) (probes : List Word) :
    ∀ acc : List Word × List Word,
      w ∈ acc.1 → w ∈ (probes.foldl (sessionStep wl) acc).1 := by
  induction probes with
  | nil => intro acc h; exact h
  | cons p ps ih =>
    intro acc h
    rw [List.foldl_cons]
    exact ih _ (sessionStep_found_mono wl acc p w h)

theorem session_found_of_probe (wl : List Word) (w : Word) (hw : w ∈ wl)
    (probes : List Word) :
    ∀ acc : List Word × List Word,
      (∃ p ∈ probes, pyIn w p = true) →
        w ∈ (probes.foldl (sessionStep wl) acc).1 := by
  induction probes with
  | nil => intro acc hex; simp at hex
  | cons p ps ih =>
    intro acc hex
    rw [List.foldl_cons]
    rcases hex with ⟨q, hq, hqin⟩
    rcases List.mem_cons.mp hq with hq1 | hq2
    · subst hq1
      by_cases hacc : w ∈ acc.1
      · exact session_found_mono wl w ps _ (sessionStep_found_mono wl acc q w hacc)
      · have hm : w ∈ (sessionStep wl acc q).1 := by
          have : 0 < (detectWords wl q acc.1).1.count w := by
            rw [detect_found_count, if_pos ⟨hacc, hw, hqin⟩]; omega
          exact List.count_pos_iff.mp this
        exact session_found_mono wl w ps _ hm
    · exact ih (sessionStep wl acc p) ⟨q, hq2, hqin⟩

/-- C6: across a whole session (any sequence of retiring-drop probe
strings, starting from the empty found list), a dictionary word is in the
found list at most once and spawns at most one cluster; and if some probe
of the session contains the word, it ends up in the found list exactly
once and spawns exactly one cluster, no matter how many later probes
contain it again.  (Each spawned cluster coincides with one log entry,
lines 153-154.) -/
theorem C6_word_claimed_once (wl : List Word) (probes : List Word) (w : Word) :
    ((sessionDetect wl probes).1.count w ≤ 1 ∧ (sessionDetect wl probes).2.count w ≤ 1)
    ∧ (w ∈ wl → (∃ p ∈ probes, pyIn w p = true) →
        (sessionDetect wl probes).1.count w = 1
        ∧ (sessionDetect wl probes).2.count w = 1) := by
  have h := session_aux wl w probes ([], []) (by simp) (by simp)
  unfold sessionDetect
  constructor
  · exact ⟨h.2, by rw [h.1]; exact h.2⟩
  · intro hw hex
    have hm := session_found_of_probe wl w hw probes ([], []) hex
    have hpos : 0 < (probes.foldl (sessionStep wl) ([], [])).1.count w :=
      List.count_pos_iff.mpr hm
    have h2 := h.2
    have e1 : (probes.foldl (sessionStep wl) ([], [])).1.count w = 1 := by omega
    exact ⟨e1, by rw [h.1]; exact e1⟩

/-- Witness for C6: a one-word dictionary and two successive probes both
containing the word; it is claimed exactly once. -/
theorem C6_word_claimed_once_witness :
    (sessionDetect [['a']] [['a'], ['a']]).1.count ['a'] = 1
    ∧ (sessionDetect [['a']] [['a'], ['a']]).2.count ['a'] = 1 :=
  (C6_word_claimed_once [['a']] [['a'], ['a']] ['a']).2 (by decide)
    ⟨['a'], by decide, by decide⟩

/-! ## Scheduler lemmas (main loop, lines 129-166) -/

theorem handleInput_found (inp : Option Char) (s : SchedState) :
    (handleInput inp s).1.found = s.found := by
  unfold handleInput
  rcases inp with _ | c
  · rfl
  · dsimp only
    split_ifs <;> rfl

theorem detectStep_len (p : Word) (acc : List Word × List Word) (v : Word) :
    acc.1.length ≤ (detectStep p acc v).1.length := by
  unfold detectStep
  split
  · split
    · exact le_refl _
    · simp
  · exact le_refl _

theorem detect_found_len (wl : List Word) (p : Word) :
    ∀ acc : List Word × List Word,
      acc.1.length ≤ (wl.foldl (detectStep p) acc).1.length := by
  induction wl with
  | nil => intro acc; exact le_refl _
  | cons v rest ih =>
    intro acc
    rw [List.foldl_cons]
    exact le_trans (detectStep_len p acc v) (ih _)

theorem dropsStep_found_len (wl : List Word) (env : Env) (maxRow : ℚ) (cx cy : Int)
    (acc : List Drop × List Word × List Cluster) (p : Nat × Drop) :
    acc.2.1.length ≤ (dropsStep wl env maxRow cx cy acc p).2.1.length := by
  simp only [dropsStep]
  split
  · exact le_refl _
  · exact detect_found_len wl _ (acc.2.1, [])

theorem dropsPhase_found_len (wl : List Word) (env : Env) (maxRow : ℚ) (cx cy : Int) :
    ∀ (l : List (Nat × Drop)) (acc : List Drop × List Word × List Cluster),
      acc.2.1.length ≤ (l.foldl (dropsStep wl env maxRow cx cy) acc).2.1.length := by
  intro l
  induction l with
  | nil => intro acc; exact le_refl _
  | cons e rest ih =>
    intro acc
    rw [List.foldl_cons]
    exact le_trans (dropsStep_found_len wl env maxRow cx cy acc e) (ih _)

theorem updatePhase_found_le (wl : List Word) (env : Env) (maxRow : ℚ) (cx cy : Int)
    (s s2 : SchedState) (h : updatePhase wl env maxRow cx cy s = Except.ok s2) :
    s.found.length ≤ s2.found.length := by
  simp only [updatePhase] at h
  rcases hcs : clustersStep (dropsPhase wl env maxRow cx cy s.drops s.found s.clusters).2.2
    with e | cls
  · rw [hcs] at h
    exact absurd h (by simp)
  · rw [hcs] at h
    simp only [Except.ok.injEq] at h
    rw [← h]
    show s.found.length ≤ (dropsPhase wl env maxRow cx cy s.drops s.found s.clusters).2.1.length
    unfold dropsPhase
    exact dropsPhase_found_len wl env maxRow cx cy _
      (([] : List Drop), s.found, s.clusters)

/-- C3 amended: whenever the termination check of a tick actually runs —
that is, the session is unpaused once the tick's input has been dispatched
and the update phase completes without raising — a found list that has
reached `TARGET_COUNT` makes the tick break out of the running loop into
the terminal summary state.  The check does NOT run on a paused tick: the
entire update-and-check block sits under `if not paused` (lines 141-166),
so a paused session keeps looping regardless of the found count. -/
theorem C3_amended (wl : List Word) (env : Env) (maxRow : ℚ) (cx cy : Int)
    (inp : Option Char) (s : SchedState) (r : TickOut)
    (hq : (handleInput inp { s with frame := s.frame + 1 }).2 = false)
    (hp : (handleInput inp { s with frame := s.frame + 1 }).1.paused = false)
    (hfound : TARGET_COUNT ≤ s.found.length)
    (hr : tick wl env maxRow cx cy inp s = Except.ok r) :
    r.brk = true := by
  simp only [tick] at hr
  rw [hq, hp] at hr
  simp only [Bool.false_eq_true, if_false] at hr
  split at hr
  · exact absurd hr (by simp)
  · simp only [Except.ok.injEq] at hr
    rw [← hr]
    rename_i s2 heq
    have hle := updatePhase_found_le wl env maxRow cx cy _ s2 heq
    rw [handleInput_found] at hle
    simp only [decide_eq_true_eq]
    exact le_trans hfound hle

/-- An oracle with no random spawn and no glyph morphing. -/
def envNone : Env := { spawn := none, morph := fun _ => none }

/-- A found list that has already reached the target count. -/
def foundTen : List Word := List.replicate 10 ['w']

/-- A paused session whose found list has reached the target count. -/
def pausedTen : SchedState :=
  { drops := [], clusters := [], found := foundTen, paused := true,
    delay := 0.05, frame := 0, spin := 0 }

/-- The same session, unpaused. -/
def runningTen : SchedState := { pausedTen with paused := false }

/-- Counterexample to C3 as stated: a PAUSED tick with the found count
already at `TARGET_COUNT` does not break out of the running loop — the
termination check sits inside `if not paused` (line 166 under line 141) —
so termination does not happen "regardless of whether the session is
paused". -/
theorem C3_counterexample :
    pausedTen.paused = true
    ∧ TARGET_COUNT ≤ pausedTen.found.length
    ∧ tick [] envNone 23 40 12 none pausedTen
        = Except.ok { state := { pausedTen with frame := 1 },
                      brk := false, rendered := false } :=
  ⟨rfl, by decide, rfl⟩

/-- Witness for C3 amended: an unpaused tick with ten found words and no
input breaks out of the running loop. -/
theorem C3_amended_witness :
    TickOut.brk { state := { runningTen with frame := 1 }, brk := true, rendered := true }
      = true :=
  C3_amended [] envNone 23 40 12 none runningTen
    { state := { runningTen with frame := 1 }, brk := true, rendered := true }
    rfl rfl (by decide) rfl

/-- C8: on a tick that starts paused and whose input is not the pause
toggle, the tick completes normally with nothing rendered, the drops, the
clusters and the found list exactly as they were (so a later resume
continues every entity from its frozen state), the session still paused
unless quitting, input having been polled and dispatched (only the
pacing-delay keys can take effect), and the loop breaking exactly on the
quit command. -/
theorem C8_paused_tick_frozen (wl : List Word) (env : Env) (maxRow : ℚ) (cx cy : Int)
    (inp : Option Char) (s : SchedState) (hp : s.paused = true) (hnp : inp ≠ some 'p') :
    tick wl env maxRow cx cy inp s
      = Except.ok { state := (handleInput inp { s with frame := s.frame + 1 }).1,
                    brk := decide (inp = some 'q'), rendered := false }
    ∧ (handleInput inp { s with frame := s.frame + 1 }).1.drops = s.drops
    ∧ (handleInput inp { s with frame := s.frame + 1 }).1.clusters = s.clusters
    ∧ (handleInput inp { s with frame := s.frame + 1 }).1.found = s.found
    ∧ (handleInput inp { s with frame := s.frame + 1 }).1.paused = true := by
  rcases inp with _ | c
  · exact ⟨by simp [tick, handleInput, hp], rfl, rfl, rfl, hp⟩
  · have hcp : ¬(c = 'p') := by
      intro h
      exact hnp (by rw [h])
    by_cases hq : c = 'q'
    · subst hq
      refine ⟨?_, ?_, ?_, ?_, ?_⟩ <;> simp [tick, handleInput, hp]
    · refine ⟨?_, ?_, ?_, ?_, ?_⟩ <;>
        simp only [tick, handleInput, hcp, hq, if_false] <;>
        split_ifs <;>
        simp_all [hp]

/-- A paused mid-session state used to witness C8. -/
def pausedOne : SchedState :=
  { drops := [], clusters := [], found := [['w']], paused := true,
    delay := 0.05, frame := 3, spin := 1 }

/-- Witness for C8: a paused tick receiving the slow-down key leaves
drops, clusters and found list untouched, renders nothing, stays paused,
and does not break. -/
theorem C8_paused_tick_frozen_witness :
    tick [] envNone 23 40 12 (some '-') pausedOne
      = Except.ok { state := (handleInput (some '-')
                      { pausedOne with frame := pausedOne.frame + 1 }).1,
                    brk := decide ((some '-' : Option Char) = some 'q'), rendered := false }
    ∧ (handleInput (some '-') { pausedOne with frame := pausedOne.frame + 1 }).1.drops
        = pausedOne.drops
    ∧ (handleInput (some '-') { pausedOne with frame := pausedOne.frame + 1 }).1.clusters
        = pausedOne.clusters
    ∧ (handleInput (some '-') { pausedOne with frame := pausedOne.frame + 1 }).1.found
        = pausedOne.found
    ∧ (handleInput (some '-') { pausedOne with frame := pausedOne.frame + 1 }).1.paused
        = true :=
  C8_paused_tick_frozen [] envNone 23 40 12 (some '-') pausedOne rfl (by decide)

/-- The scheduler's initial session state (lines 123-125): empty entity
lists, empty found list, unpaused, pacing delay 0.05. -/
def initSched : SchedState :=
  { drops := [], clusters := [], found := [], paused := false,
    delay := 0.05, frame := 0, spin := 0 }

/-- C9: from the initial pacing delay 0.05, ten consecutive slow-down
commands (each adds 0.01 to the delay, with no upper bound, line 139)
yield exactly 0.15.  Delay arithmetic is modelled as exact rational
arithmetic; the actual IEEE-754 execution of the source compares equal to
the literal 0.15 after these ten additions as well. -/
theorem C9_ten_slowdowns :
    ((List.replicate 10 (some '-')).foldl (fun st i => (handleInput i st).1) initSched).delay
      = 0.15 := by
  have hstep : ∀ st : SchedState,
      (handleInput (some '-') st).1 = { st with delay := st.delay + 0.01 } :=
    fun st => rfl
  simp only [List.replicate, List.foldl_cons, List.foldl_nil, hstep]
  norm_num [initSched]
